import Mathlib

/-!
Shallow embedding of `src/computation.ts` (the `Computation` arrow library).

A TypeScript `Computation<I,O>` wraps a function `(input: I) => Promise<O>`.
We embed a promise-returning function as
`I → Nat → List (Nat × Nat) × Nat × Except E O`:
given the input and the virtual time at which the invocation is dispatched,
it yields
 - the list of leaf invocations it performs, each recorded as
   (label of the wrapped function, virtual time at which that invocation
   was dispatched),
 - the virtual time at which the returned promise settles, and
 - the settlement: `Except.ok` models resolution, `Except.error` models
   rejection (the error type `E` is abstract).
A leaf computation (one built directly from a wrapped async function, as by
the class constructor) is modelled by `Computation.leaf`: it logs exactly one
invocation event at its dispatch time, takes `d` ticks to settle, and
settles according to a behaviour function `I → Except E O`.
In JavaScript, calling `run(input)` starts the wrapped async function at once
(its body executes up to its first suspension point), so the dispatch time of
a sub-computation is the virtual time at which the embedding calls its `run`.
-/

namespace TS

/-- Tagged union mirroring
`type Either<A, B> = { kind: 'LEFT'; value: A } | { kind: 'RIGHT'; value: B }`
from `src/computation.ts` line 1. -/
inductive Either (A B : Type) where
  | LEFT : A → Either A B
  | RIGHT : B → Either A B
deriving DecidableEq

/-- The `Computation` class of `src/computation.ts`: its single field is the
wrapped function `run: (input: I) => Promise<O>` (line 23), here in the timed
trace model described above. `Computation.mk` is the class constructor
(lines 217-219), which stores the given function unchanged. -/
structure Computation (E I O : Type) where
  run : I → Nat → List (Nat × Nat) × Nat × Except E O

namespace Computation

variable {E I O I2 O2 O3 N D I1 : Type}

/-- A leaf computation: a wrapped async function with observation label `l`,
duration `d` ticks, and settlement behaviour `f`. This is what the class
constructor produces when handed a raw async function; the label lets the
theorems count invocations of the wrapped function, as the spec's
side-channel counters do. -/
def leaf (l d : Nat) (f : I → Except E O) : Computation E I O :=
  ⟨fun i t => ([(l, t)], t + d, f i)⟩

/-- `mapOutput` (lines 37-40):
`new Computation(input => this.run(input).then(result => mapper(result)))`.
A JavaScript mapper may throw, so it is embedded as `O → Except E N`;
per `.then` semantics a rejected promise skips the mapper and propagates,
and a throwing mapper rejects the derived promise with the thrown value. -/
def mapOutput (c : Computation E I O) (mapper : O → Except E N) :
    Computation E I N :=
  ⟨fun i t =>
    match c.run i t with
    | (tr, t1, Except.error e) => (tr, t1, Except.error e)
    | (tr, t1, Except.ok o) => (tr, t1, mapper o)⟩

/-- `mapInput` (lines 52-53):
`new Computation(input => this.run(mapper(input)))`. -/
def mapInput (c : Computation E I O) (mapper : N → I) : Computation E N O :=
  ⟨fun i t => c.run (mapper i) t⟩

/-- `branch` (lines 66-71), exactly as coded:
```
new Computation(async input => {
    const result1 = await this.run(input);
    const result2 = await computation.run(input);
    return [result1, result2];
});
```
`computation.run(input)` is only called after the first `await` completes,
so the second operand is dispatched at the first operand's settle time, and
if the first operand rejects, the async function rethrows and the second
operand is never invoked. -/
def branch (c : Computation E I O) (c2 : Computation E I O2) :
    Computation E I (O × O2) :=
  ⟨fun i t =>
    match c.run i t with
    | (tr1, t1, Except.error e) => (tr1, t1, Except.error e)
    | (tr1, t1, Except.ok o1) =>
      match c2.run i t1 with
      | (tr2, t2, Except.error e) => (tr1 ++ tr2, t2, Except.error e)
      | (tr2, t2, Except.ok o2) => (tr1 ++ tr2, t2, Except.ok (o1, o2))⟩

/-- `pair` (lines 81-86):
`new Computation(input => Promise.all([this.run(input[0]), computation.run(input[1])]))`.
Both `run` calls happen before `Promise.all` awaits anything, so both
operands are dispatched at the combined computation's own dispatch time.
`Promise.all` resolves with both values once both settle (at the later of
the two settle times), and rejects as soon as either rejects, with the
earlier rejection (ties broken towards the left operand, whose handler is
attached first). -/
def pair (c : Computation E I O) (c2 : Computation E I2 O2) :
    Computation E (I × I2) (O × O2) :=
  ⟨fun i t =>
    match c.run i.1 t, c2.run i.2 t with
    | (tr1, t1, Except.ok o1), (tr2, t2, Except.ok o2) =>
        (tr1 ++ tr2, max t1 t2, Except.ok (o1, o2))
    | (tr1, t1, Except.error e1), (tr2, _, Except.ok _) =>
        (tr1 ++ tr2, t1, Except.error e1)
    | (tr1, _, Except.ok _), (tr2, t2, Except.error e2) =>
        (tr1 ++ tr2, t2, Except.error e2)
    | (tr1, t1, Except.error e1), (tr2, t2, Except.error e2) =>
        if t1 ≤ t2 then (tr1 ++ tr2, t1, Except.error e1)
        else (tr1 ++ tr2, t2, Except.error e2)⟩

/-- `andThen` (lines 96-99):
`new Computation(input => this.run(input).then(output => computation.run(output)))`.
The second computation is dispatched with the first one's output at the
first one's settle time, and only if the first resolved. -/
def andThen (c : Computation E I O) (c2 : Computation E O O2) :
    Computation E I O2 :=
  ⟨fun i t =>
    match c.run i t with
    | (tr1, t1, Except.error e) => (tr1, t1, Except.error e)
    | (tr1, t1, Except.ok o) =>
      match c2.run o t1 with
      | (tr2, t2, r2) => (tr1 ++ tr2, t2, r2)⟩

/-- Static `second` (lines 110-115):
`new Computation(input => computation.run(input[1]).then(output => [input[0], output]))`. -/
def second (c : Computation E I O) : Computation E (D × I) (D × O) :=
  ⟨fun i t =>
    match c.run i.2 t with
    | (tr, t1, Except.error e) => (tr, t1, Except.error e)
    | (tr, t1, Except.ok o) => (tr, t1, Except.ok (i.1, o))⟩

/-- Static `first` (lines 126-131):
`new Computation(input => computation.run(input[0]).then(output => [output, input[1]]))`. -/
def first (c : Computation E I O) : Computation E (I × D) (O × D) :=
  ⟨fun i t =>
    match c.run i.1 t with
    | (tr, t1, Except.error e) => (tr, t1, Except.error e)
    | (tr, t1, Except.ok o) => (tr, t1, Except.ok (o, i.2))⟩

/-- Static `split` (lines 149-155):
```
new Computation(async input => {
    const result = await computation.run(input);
    return [result, result];
});
```
One `run` call, its single result duplicated. -/
def split (c : Computation E I O) : Computation E I (O × O) :=
  ⟨fun i t =>
    match c.run i t with
    | (tr, t1, Except.error e) => (tr, t1, Except.error e)
    | (tr, t1, Except.ok o) => (tr, t1, Except.ok (o, o))⟩

/-- `add` (lines 166-178): switches on the input's tag, runs exactly the
matching operand, and re-tags its resolution with the same tag. -/
def add (c : Computation E I O) (c2 : Computation E I2 O2) :
    Computation E (Either I I2) (Either O O2) :=
  ⟨fun input t =>
    match input with
    | Either.LEFT v =>
      match c.run v t with
      | (tr, t1, Except.error e) => (tr, t1, Except.error e)
      | (tr, t1, Except.ok o) => (tr, t1, Except.ok (Either.LEFT o))
    | Either.RIGHT v =>
      match c2.run v t with
      | (tr, t1, Except.error e) => (tr, t1, Except.error e)
      | (tr, t1, Except.ok o) => (tr, t1, Except.ok (Either.RIGHT o))⟩

/-- `fanIn` (lines 189-199): switches on the input's tag and returns the
matching operand's promise directly, with no re-tagging. -/
def fanIn (c : Computation E I O) (c2 : Computation E I2 O) :
    Computation E (Either I I2) O :=
  ⟨fun input t =>
    match input with
    | Either.LEFT v => c.run v t
    | Either.RIGHT v => c2.run v t⟩

/-- Static `left` (lines 228-240): on a LEFT input runs the computation and
re-tags LEFT; on a RIGHT input awaits `Promise.resolve(input.value)` (no
leaf invocation, already-settled value) and returns it re-tagged RIGHT. -/
def left (c : Computation E I O) : Computation E (Either I D) (Either O D) :=
  ⟨fun input t =>
    match input with
    | Either.LEFT v =>
      match c.run v t with
      | (tr, t1, Except.error e) => (tr, t1, Except.error e)
      | (tr, t1, Except.ok o) => (tr, t1, Except.ok (Either.LEFT o))
    | Either.RIGHT v => ([], t, Except.ok (Either.RIGHT v))⟩

/-- Static `right` (lines 249-261): mirror image of `left`. -/
def right (c : Computation E I O) : Computation E (Either D I) (Either D O) :=
  ⟨fun input t =>
    match input with
    | Either.LEFT v => ([], t, Except.ok (Either.LEFT v))
    | Either.RIGHT v =>
      match c.run v t with
      | (tr, t1, Except.error e) => (tr, t1, Except.error e)
      | (tr, t1, Except.ok o) => (tr, t1, Except.ok (Either.RIGHT o))⟩

/-- Static `runLeft` (lines 267-270): `computation.run({ kind: 'LEFT', value })`. -/
def runLeft (c : Computation E (Either I1 I2) O) (value : I1) (t : Nat) :
    List (Nat × Nat) × Nat × Except E O :=
  c.run (Either.LEFT value) t

/-- Static `runRight` (lines 276-279): `computation.run({ kind: 'RIGHT', value })`. -/
def runRight (c : Computation E (Either I1 I2) O) (value : I2) (t : Nat) :
    List (Nat × Nat) × Nat × Except E O :=
  c.run (Either.RIGHT value) t

/-- Static `merge` (lines 299-302):
`new Computation((input: [I1, I2]) => Promise.resolve(merger(input[0], input[1])))`:
an already-settled promise, no leaf invocation, no delay. -/
def merge (merger : I1 → I2 → O) : Computation E (I1 × I2) O :=
  ⟨fun input t => ([], t, Except.ok (merger input.1 input.2))⟩

end Computation

/-- How many events of a trace belong to the wrapped function labelled `l`:
the spec's shared invocation counter. -/
def invocations (tr : List (Nat × Nat)) (l : Nat) : Nat :=
  (tr.filter (fun ev => ev.1 == l)).length

variable {E I O I2 O2 O3 N D I1 : Type}

/-- C1: evaluation of the code at a concrete input. Two unit leaf
computations labelled 0 and 1, each of duration 1, are combined and
dispatched at virtual time 0. Under `branch`, operand 1's invocation starts
at time 1 — the settle time of operand 0, i.e. only after waiting on operand
0's result — whereas under `pair` both invocations start at the dispatch
time 0. So `pair` starts both operand invocations before waiting on either,
but `branch` does not: it awaits the first operand's result before starting
the second, contradicting the claimed concurrent dispatch. -/
theorem branch_sequential_dispatch :
    ((Computation.leaf 0 1 (fun _ : Unit => (Except.ok 0 : Except Nat Nat))).branch
        (Computation.leaf 1 1 (fun _ : Unit => (Except.ok 0 : Except Nat Nat)))).run () 0
      = ([(0, 0), (1, 1)], 2, Except.ok (0, 0)) ∧
    ((Computation.leaf 0 1 (fun _ : Unit => (Except.ok 0 : Except Nat Nat))).pair
        (Computation.leaf 1 1 (fun _ : Unit => (Except.ok 0 : Except Nat Nat)))).run ((), ()) 0
      = ([(0, 0), (1, 0)], 1, Except.ok (0, 0)) :=
  ⟨rfl, rfl⟩

/-- C2: when the first operand of `branch` resolves on input `x` with `o1`,
and the second operand resolves on `x` with `o2` whenever it is dispatched,
the combined computation resolves with exactly the pair (o1, o2) — the first
operand's output first, the second operand's output second. -/
theorem branch_result_shape (a : Computation E I O) (b : Computation E I O2)
    (x : I) (t : Nat) (o1 : O) (o2 : O2)
    (h1 : (a.run x t).2.2 = Except.ok o1)
    (h2 : ∀ u : Nat, (b.run x u).2.2 = Except.ok o2) :
    ((a.branch b).run x t).2.2 = Except.ok (o1, o2) := by
  rcases hr : a.run x t with ⟨tr1, t1, r1⟩
  have h : r1 = Except.ok o1 := by rw [hr] at h1; exact h1
  subst h
  rcases hb : b.run x t1 with ⟨tr2, t2, r2⟩
  have h : r2 = Except.ok o2 := by have := h2 t1; rw [hb] at this; exact this
  subst h
  simp [Computation.branch, hr, hb]

/-- C2 witness: a concrete instance of `branch_result_shape`. -/
theorem branch_result_shape_witness :
    (((Computation.leaf 0 1 (fun _ : Unit => (Except.ok 10 : Except Nat Nat))).branch
        (Computation.leaf 1 2 (fun _ : Unit => (Except.ok 20 : Except Nat Nat)))).run () 0).2.2
      = Except.ok (10, 20) :=
  branch_result_shape _ _ () 0 10 20 rfl (fun _ => rfl)

/-- C3: `andThen` runs the first computation and, only upon its resolution,
dispatches the second with the first's output at the first's settle time.
If the first rejects, the combined computation rejects with the same error
after performing only the first's invocations, and the outcome does not
depend on the second computation at all (its wrapped function is never
invoked); if the first resolves, the combined settlement is exactly the
second's settlement on the first's output — in particular the second's
rejection propagates. -/
theorem andThen_spec (a : Computation E I O) (b : Computation E O O2)
    (x : I) (t : Nat) :
    (∀ e : E, (a.run x t).2.2 = Except.error e →
       (a.andThen b).run x t = ((a.run x t).1, (a.run x t).2.1, Except.error e) ∧
       ∀ b2 : Computation E O O2,
         (a.andThen b2).run x t = (a.andThen b).run x t) ∧
    ∀ o : O, (a.run x t).2.2 = Except.ok o →
      (a.andThen b).run x t
        = ((a.run x t).1 ++ (b.run o (a.run x t).2.1).1,
           (b.run o (a.run x t).2.1).2.1, (b.run o (a.run x t).2.1).2.2) := by
  rcases hr : a.run x t with ⟨tr1, t1, r1⟩
  refine ⟨fun e he => ?_, fun o ho => ?_⟩
  · have h : r1 = Except.error e := he
    subst h
    exact ⟨by simp [Computation.andThen, hr], fun b2 => by
      simp [Computation.andThen, hr]⟩
  · have h : r1 = Except.ok o := ho
    subst h
    rcases hb : b.run o t1 with ⟨tr2, t2, r2⟩
    simp [Computation.andThen, hr, hb]

/-- C3 witness: a concrete instance of `andThen_spec`, with an
always-rejecting first stage. -/
theorem andThen_spec_witness :
    ((Computation.leaf 0 1 (fun _ : Unit => (Except.error 7 : Except Nat Nat))).andThen
        (Computation.leaf 1 1 (fun n : Nat => (Except.ok n : Except Nat Nat)))).run () 0
      = ([(0, 0)], 1, Except.error 7) :=
  ((andThen_spec _ _ () 0).1 7 rfl).1

/-- C4: `mapOutput` applies the mapper to the original computation's
resolution value, and the derived computation settles with whatever the
mapper yields — its value if it returns, the thrown error if it throws. If
the original rejects, the derived computation rejects with the same error
after the same invocations, and the outcome does not depend on the mapper
at all (the mapper is never invoked). -/
theorem mapOutput_spec (c : Computation E I O) (mapper : O → Except E N)
    (x : I) (t : Nat) :
    (∀ o : O, (c.run x t).2.2 = Except.ok o →
       (c.mapOutput mapper).run x t
         = ((c.run x t).1, (c.run x t).2.1, mapper o)) ∧
    ∀ e : E, (c.run x t).2.2 = Except.error e →
      (c.mapOutput mapper).run x t
        = ((c.run x t).1, (c.run x t).2.1, Except.error e) ∧
      ∀ m2 : O → Except E N,
        (c.mapOutput m2).run x t = (c.mapOutput mapper).run x t := by
  rcases hr : c.run x t with ⟨tr1, t1, r1⟩
  refine ⟨fun o ho => ?_, fun e he => ?_⟩
  · have h : r1 = Except.ok o := ho
    subst h
    simp [Computation.mapOutput, hr]
  · have h : r1 = Except.error e := he
    subst h
    exact ⟨by simp [Computation.mapOutput, hr], fun m2 => by
      simp [Computation.mapOutput, hr]⟩

/-- C4 witness: a concrete instance of `mapOutput_spec`, with a mapper that
throws on the resolved value 4. -/
theorem mapOutput_spec_witness :
    ((Computation.leaf 0 1 (fun _ : Unit => (Except.ok 4 : Except Nat Nat))).mapOutput
        (fun n => (Except.error (n + 1) : Except Nat Nat))).run () 0
      = ([(0, 0)], 1, Except.error 5) :=
  (mapOutput_spec _ _ () 0).1 4 rfl

/-- C5: on a leaf computation whose wrapped function is labelled `l` and
resolves input `x` with `r`, `split` performs exactly one invocation of the
wrapped function and resolves with the duplicated pair (r, r), whereas
`branch` of the leaf with itself performs exactly two invocations. -/
theorem split_once_branch_twice (l d : Nat) (f : I → Except E O)
    (x : I) (t : Nat) (r : O) (hf : f x = Except.ok r) :
    (Computation.split (Computation.leaf l d f)).run x t
      = ([(l, t)], t + d, Except.ok (r, r)) ∧
    invocations ((Computation.split (Computation.leaf l d f)).run x t).1 l = 1 ∧
    invocations (((Computation.leaf l d f).branch (Computation.leaf l d f)).run x t).1 l
      = 2 := by
  have h1 : (Computation.split (Computation.leaf l d f)).run x t
      = ([(l, t)], t + d, Except.ok (r, r)) := by
    simp [Computation.split, Computation.leaf, hf]
  have h2 : ((Computation.leaf l d f).branch (Computation.leaf l d f)).run x t
      = ([(l, t), (l, t + d)], t + d + d, Except.ok (r, r)) := by
    simp [Computation.branch, Computation.leaf, hf]
  refine ⟨h1, ?_, ?_⟩
  · rw [h1]; simp [invocations]
  · rw [h2]; simp [invocations]

/-- C5 witness: a concrete instance of `split_once_branch_twice`. -/
theorem split_once_branch_twice_witness :
    (Computation.split
        (Computation.leaf 0 1 (fun _ : Unit => (Except.ok 5 : Except Nat Nat)))).run () 0
      = ([(0, 0)], 1, Except.ok (5, 5)) :=
  (split_once_branch_twice 0 1 (fun _ : Unit => (Except.ok 5 : Except Nat Nat))
    () 0 5 rfl).1

/-- C6: `add` and `fanIn` route each invocation to exactly the operand
selected by the input's tag: on a LEFT input, the combined settlement is the
left operand's settlement (re-tagged LEFT by `add`, untouched by `fanIn`,
rejections untouched by both since `Except.map` only touches resolutions),
its invocations are exactly the left operand's invocations, and the outcome
does not depend on the right operand at all (its wrapped function is never
invoked); symmetrically on a RIGHT input. -/
theorem add_fanIn_routing (a : Computation E I O) (b : Computation E I2 O2)
    (c : Computation E I O3) (d : Computation E I2 O3) (v : I) (w : I2) (t : Nat) :
    ((a.add b).run (Either.LEFT v) t
        = ((a.run v t).1, (a.run v t).2.1, Except.map Either.LEFT (a.run v t).2.2) ∧
      ∀ b2 : Computation E I2 O2,
        (a.add b2).run (Either.LEFT v) t = (a.add b).run (Either.LEFT v) t) ∧
    ((a.add b).run (Either.RIGHT w) t
        = ((b.run w t).1, (b.run w t).2.1, Except.map Either.RIGHT (b.run w t).2.2) ∧
      ∀ a2 : Computation E I O,
        (a2.add b).run (Either.RIGHT w) t = (a.add b).run (Either.RIGHT w) t) ∧
    ((c.fanIn d).run (Either.LEFT v) t = c.run v t ∧
      ∀ d2 : Computation E I2 O3,
        (c.fanIn d2).run (Either.LEFT v) t = c.run v t) ∧
    ((c.fanIn d).run (Either.RIGHT w) t = d.run w t ∧
      ∀ c2 : Computation E I O3,
        (c2.fanIn d).run (Either.RIGHT w) t = d.run w t) := by
  rcases ha : a.run v t with ⟨tra, ta, ra⟩
  rcases hb : b.run w t with ⟨trb, tb, rb⟩
  refine ⟨⟨?_, fun b2 => ?_⟩, ⟨?_, fun a2 => ?_⟩, ⟨rfl, fun d2 => rfl⟩,
    rfl, fun c2 => rfl⟩
  · rcases ra with e | o <;> simp [Computation.add, ha, Except.map]
  · rcases ha2 : a.run v t with ⟨tra2, ta2, ra2⟩
    rcases ra2 with e | o <;> simp [Computation.add, ha2]
  · rcases rb with e | o <;> simp [Computation.add, hb, Except.map]
  · rcases hb2 : b.run w t with ⟨trb2, tb2, rb2⟩
    rcases rb2 with e | o <;> simp [Computation.add, hb2]

/-- C7: `merge` lifts a pure two-argument function into a computation on
pair inputs that performs no invocations, settles immediately, and always
resolves with the function applied to the two components; in particular
merging addition resolves the input (2, 3) to 5. -/
theorem merge_spec (f : I1 → I2 → O) (x : I1) (y : I2) (t : Nat) :
    (Computation.merge f : Computation E (I1 × I2) O).run (x, y) t
      = ([], t, Except.ok (f x y)) ∧
    ((Computation.merge (fun u v : Nat => u + v) :
        Computation Nat (Nat × Nat) Nat).run (2, 3) 0).2.2 = Except.ok 5 :=
  ⟨rfl, rfl⟩

/-- C8: sequencing with `andThen` is associative — for every input and
dispatch time, the two nestings settle identically (same invocations, same
settle time, same resolution or rejection), with no assumption needed on
the three stages' outcomes. -/
theorem andThen_assoc (a : Computation E I O) (b : Computation E O O2)
    (c : Computation E O2 O3) (x : I) (t : Nat) :
    ((a.andThen b).andThen c).run x t = (a.andThen (b.andThen c)).run x t := by
  rcases h1 : a.run x t with ⟨tr1, t1, r1⟩
  rcases r1 with e | o1
  · simp [Computation.andThen, h1]
  · rcases h2 : b.run o1 t1 with ⟨tr2, t2, r2⟩
    rcases r2 with e | o2
    · simp [Computation.andThen, h1, h2]
    · rcases h3 : c.run o2 t2 with ⟨tr3, t3, r3⟩
      simp [Computation.andThen, h1, h2, h3]

/-- C9: `first` runs the computation on the first tuple component at the
tuple computation's own dispatch time and passes the second component
through to the output unchanged, never affecting the invocations, settle
time, or failure of the inner computation; `second` is the mirror image on
the second component. -/
theorem first_second_frame (c : Computation E I O) (i : I) (d : D) (t : Nat) :
    (Computation.first c).run (i, d) t
      = ((c.run i t).1, (c.run i t).2.1,
         Except.map (fun o => (o, d)) (c.run i t).2.2) ∧
    (Computation.second c).run (d, i) t
      = ((c.run i t).1, (c.run i t).2.1,
         Except.map (fun o => (d, o)) (c.run i t).2.2) := by
  rcases h : c.run i t with ⟨tr, t1, r⟩
  rcases r with e | o <;>
    simp [Computation.first, Computation.second, h, Except.map]

/-- C10: on the untouched side, `left` and `right` act as identity — `left`
on a RIGHT-tagged input resolves immediately to the same value still tagged
RIGHT, with no invocation performed, and the outcome does not depend on the
wrapped computation at all (its wrapped function is never invoked);
symmetrically for `right` on a LEFT-tagged input. -/
theorem left_right_untouched_side (c : Computation E I O) (v : D) (t : Nat) :
    ((Computation.left c).run (Either.RIGHT v) t
        = ([], t, Except.ok (Either.RIGHT v)) ∧
      ∀ c2 : Computation E I O,
        (Computation.left c2).run (Either.RIGHT v) t
          = ([], t, Except.ok (Either.RIGHT v))) ∧
    ((Computation.right c).run (Either.LEFT v) t
        = ([], t, Except.ok (Either.LEFT v)) ∧
      ∀ c2 : Computation E I O,
        (Computation.right c2).run (Either.LEFT v) t
          = ([], t, Except.ok (Either.LEFT v))) :=
  ⟨⟨rfl, fun _ => rfl⟩, rfl, fun _ => rfl⟩

end TS
